import Mathlib

/-!
Verification development for the easyDataverse metadata engine.

We shallowly embed the Python sources in Lean:
  - easyDataverse/base.py       (DataverseBase: dict, dataverse_dict, is_empty,
                                 _snake_to_camel)
  - easyDataverse/core/dataset.py (Dataset: add_file, add_directory and its
                                 filter helpers, _validate_required_field(s),
                                 _snake_to_camel)

Python runtime values (None, str, date, list, dict, pydantic model objects)
are embedded as the inductive type Value below; pydantic model_dump is
embedded as pyDump, DataverseBase.dict as pyDict, and so on.  All
definitions are executable.
-/

namespace EasyDataverse

/-! ## Python string primitives

Implemented structurally over character lists so that every definition
evaluates by kernel reduction on concrete inputs. -/

/-- Does the second character list begin with the first? -/
def listBeginsWith : List Char → List Char → Bool
  | [], _ => true
  | _ :: _, [] => false
  | p :: ps, c :: cs => p == c && listBeginsWith ps cs

/-- Python str.startswith. -/
def pyStartsWith (s pre : String) : Bool :=
  listBeginsWith pre.data s.data

/-- Python str.endswith. -/
def pyEndsWith (s post : String) : Bool :=
  listBeginsWith post.data.reverse s.data.reverse

/-- Leftmost non-overlapping split on a non-empty separator; the fuel is
the input length, an upper bound on the steps (each consumes at least one
character). -/
def splitOnCharsAux (sep : List Char) : Nat → List Char → List Char → List (List Char)
  | _, [], cur => [cur.reverse]
  | 0, s, cur => [cur.reverse ++ s]
  | fuel + 1, c :: rest, cur =>
    if listBeginsWith sep (c :: rest) then
      cur.reverse :: splitOnCharsAux sep fuel ((c :: rest).drop sep.length) []
    else
      splitOnCharsAux sep fuel rest (c :: cur)

/-- Python str.split with an explicit separator.  Python raises on the
empty separator; the embedded code never passes one, and the guard
returns the string whole in that unreachable case. -/
def pySplit (s sep : String) : List String :=
  if sep.data.isEmpty then [s]
  else (splitOnCharsAux sep.data s.data.length s.data []).map String.mk

/-- Replace every leftmost non-overlapping occurrence of a non-empty
pattern. -/
def replaceCharsAux (pat rep : List Char) : Nat → List Char → List Char
  | _, [] => []
  | 0, s => s
  | fuel + 1, c :: rest =>
    if listBeginsWith pat (c :: rest) then
      rep ++ replaceCharsAux pat rep fuel ((c :: rest).drop pat.length)
    else
      c :: replaceCharsAux pat rep fuel rest

/-- Python str.replace.  The embedded code only replaces non-empty
patterns; the empty-pattern case returns the string unchanged. -/
def pyReplace (s old new : String) : String :=
  if old.data.isEmpty then s
  else String.mk (replaceCharsAux old.data new.data s.data.length s.data)

/-- Python substring containment, the expression needle in hay for strings.
For a non-empty needle, hay.split(needle) has at least two parts exactly
when needle occurs in hay; the empty needle is contained in every string. -/
def pyIn (needle hay : String) : Bool :=
  needle == "" || (pySplit hay needle).length ≥ 2

/-- Python str.capitalize: first character upper-cased, the rest lower-cased
(ASCII reading). -/
def pyCapitalize (s : String) : String :=
  match s.data with
  | [] => ""
  | c :: cs => String.mk (c.toUpper :: cs.map Char.toLower)

/-- Python str.isdigit (ASCII reading): non-empty and all characters digits. -/
def pyIsDigit (s : String) : Bool :=
  s ≠ "" && s.data.all Char.isDigit

/-- Python str.rstrip of the slash character. -/
def rstripSlash (s : String) : String :=
  String.mk ((s.data.reverse.dropWhile (· = '/')).reverse)

/-- CPython posixpath.normpath.  Collapses empty and dot components,
resolves dotdot components, and keeps the leading-slash count (1 or the
special 2). -/
def pyNormpath (p : String) : String :=
  if p = "" then "."
  else
    let initialSlashes : Nat :=
      if pyStartsWith p "//" && !pyStartsWith p "///" then 2
      else if pyStartsWith p "/" then 1 else 0
    let comps := pySplit p "/"
    let newComps := comps.foldl
      (fun acc comp =>
        if comp = "" ∨ comp = "." then acc
        else if comp ≠ ".." ∨ (initialSlashes = 0 ∧ acc = []) ∨
            acc.getLast? = some ".." then
          acc ++ [comp]
        else if acc ≠ [] then acc.dropLast
        else acc)
      []
    let joined := String.intercalate "/" newComps
    let res := String.mk (List.replicate initialSlashes '/') ++ joined
    if res = "" then "." else res

/-- CPython posixpath.basename: everything after the last slash. -/
def pyBasename (p : String) : String :=
  match (pySplit p "/").getLast? with
  | some x => x
  | none => ""

/-- CPython posixpath.dirname: everything up to the last slash, with
trailing slashes stripped unless the head consists of slashes only. -/
def pyDirname (p : String) : String :=
  let parts := pySplit p "/"
  if parts.length ≤ 1 then ""
  else
    let head := String.intercalate "/" parts.dropLast ++ "/"
    if head.data.all (· = '/') then head else rstripSlash head

/-- CPython posixpath.join on two components. -/
def pyJoin (a b : String) : String :=
  if pyStartsWith b "/" then b
  else if a = "" || pyEndsWith a "/" then a ++ b
  else a ++ "/" ++ b

/-- CPython posixpath.join on a list of components; Python requires at
least one argument, the empty-list case cannot arise in the embedded code
paths and is mapped to the empty string. -/
def pyJoinList : List String → String
  | [] => ""
  | p :: rest => rest.foldl pyJoin p

/-- base.py lines 104-106 and dataset.py lines 399-401, _snake_to_camel:
join of x.capitalize() or "_" over word.split("_").  Python or returns the
second operand when the first is the empty string. -/
def snake_to_camel (word : String) : String :=
  String.join ((pySplit word "_").map
    (fun x => let c := pyCapitalize x; if c = "" then "_" else c))

/-! ## The Python value model

A runtime value of the metadata object graph: None, a string scalar, a
date, a list, a plain dict, or a typed pydantic model object (vobj) with
an optional metadatablock name and its model_fields in declaration order.
Each model field carries the json_schema_extra descriptor.

Note on enums: DataverseBase sets model_config use_enum_values=True with
validate_default and validate_assignment, so attribute values never hold
Enum instances at runtime (pydantic replaces them with their underlying
values on assignment); the isinstance-Enum branch of dataverse_dict
(base.py line 136) is therefore vacuous and enums need no constructor
here.  Numbers are likewise represented by their string scalars, which is
sufficient for every claim below. -/

structure FieldDesc where
  typeName : String
  typeClass : String
  multiple : Bool
deriving DecidableEq, Repr

inductive Value where
  | vnull : Value
  | vbool : Bool → Value
  | vstr : String → Value
  | vdate : Nat → Nat → Nat → Value
  | vlist : List Value → Value
  | vdict : List (String × Value) → Value
  | vobj : Option String → List (String × FieldDesc × Value) → Value
deriving Repr

open Value

/-- True exactly on the Python None embedding. -/
def isNull : Value → Bool
  | vnull => true
  | _ => false

/-- Python truth of value == {} or value == [] (the filter on base.py
line 82 removes exactly these). -/
def isEmptyContainer : Value → Bool
  | vdict [] => true
  | vlist [] => true
  | _ => false

/-! ## pydantic model_dump and DataverseBase.dict

pyDump embeds pydantic BaseModel.model_dump(by_alias=True) with the
exclude_none flag en: a model object becomes a plain dict keyed by its
field names (the generated classes use the attribute name as alias), with
None-valued fields dropped at every model level when en is set; lists and
plain dicts are dumped element-wise (pydantic keeps None entries inside
lists); scalars and dates pass through unchanged (python-mode dump keeps
date objects). -/

mutual

def pyDump (en : Bool) : Value → Value
  | vnull => vnull
  | vbool b => vbool b
  | vstr s => vstr s
  | vdate y m d => vdate y m d
  | vlist xs => vlist (pyDumpList en xs)
  | vdict kvs => vdict (pyDumpKVs en kvs)
  | vobj _ attrs => vdict (pyDumpAttrs en attrs)

def pyDumpList (en : Bool) : List Value → List Value
  | [] => []
  | v :: rest => pyDump en v :: pyDumpList en rest

def pyDumpKVs (en : Bool) : List (String × Value) → List (String × Value)
  | [] => []
  | (k, v) :: rest => (k, pyDump en v) :: pyDumpKVs en rest

def pyDumpAttrs (en : Bool) : List (String × FieldDesc × Value) → List (String × Value)
  | [] => []
  | (n, _, v) :: rest =>
    if en && isNull v then pyDumpAttrs en rest
    else (n, pyDump en v) :: pyDumpAttrs en rest

end

/-- base.py lines 75-83, DataverseBase.dict: model_dump(by_alias=True, and
the exclude_none flag as passed by the caller), then drop every top-level key
whose value is an empty dict or an empty list. -/
def pyDict (en : Bool) (v : Value) : Value :=
  match pyDump en v with
  | vdict kvs => vdict (kvs.filter (fun p => !isEmptyContainer p.2))
  | j => j

/-- base.py lines 169-180, DataverseBase.is_empty: None, the empty list, or
a model object whose dict(exclude_none=True) form is the empty dict. -/
def is_empty (v : Value) : Bool :=
  match v with
  | vnull => true
  | vlist [] => true
  | vobj bn attrs =>
    match pyDict true (vobj bn attrs) with
    | vdict kvs => kvs.isEmpty
    | _ => false
  | _ => false

/-! ## The wire serialization engine, base.py lines 108-163 -/

/-- base.py line 115: attributes whose name contains add_ or
_metadatablock_name are skipped by dataverse_dict. -/
def helperName (attr : String) : Bool :=
  pyIn "add_" attr || pyIn "_metadatablock_name" attr

/-- strftime of a date with the pattern Y-m-d (base.py line 141),
zero-padded month and day, four-digit year. -/
def fmtDate (y m d : Nat) : String :=
  let pad2 := fun (n : Nat) => if n < 10 then "0" ++ toString n else toString n
  let pad4 := fun (n : Nat) =>
    if n < 10 then "000" ++ toString n
    else if n < 100 then "00" ++ toString n
    else if n < 1000 then "0" ++ toString n
    else toString n
  pad4 y ++ "-" ++ pad2 m ++ "-" ++ pad2 d

/-- The per-field wire mapping built on base.py lines 145-154. -/
def fieldMapping (d : FieldDesc) (v : Value) : Value :=
  vdict [("multiple", vbool d.multiple), ("typeClass", vstr d.typeClass),
         ("typeName", vstr d.typeName), ("value", v)]

/-- Python dict.update with a single key: replace the value in place when
the key is present (keeping its position), otherwise append at the end. -/
def updateAssoc (kvs : List (String × Value)) (k : String) (v : Value) :
    List (String × Value) :=
  if kvs.any (fun p => p.1 == k) then
    kvs.map (fun p => if p.1 == k then (k, v) else p)
  else kvs ++ [(k, v)]

/-- base.py lines 134-143, the value normalization applied after compound
processing.  The all-isinstance-Enum branch on line 136 is vacuous because
use_enum_values=True replaces enum members by their raw values at
assignment time, so a non-empty runtime list never consists of Enum
instances and lists pass through unchanged; plain dicts pass; dates are
formatted; remaining values hit str(value) on line 143 - in well-formed
data these are strings, which str leaves unchanged, and booleans, which
str renders as True or False.  A typed object under a non-compound
descriptor is a malformed schema that no caller produces; it is left
unchanged here (Python would stringify its repr). -/
def normalizeTail : Value → Value
  | vlist xs => vlist xs
  | vdict kvs => vdict kvs
  | vdate y m d => vstr (fmtDate y m d)
  | vbool b => vstr (if b then "True" else "False")
  | v => v

mutual

/-- base.py lines 108-163, DataverseBase.dataverse_dict.  The accumulator
json_obj is built by dataverse_fieldsAux; if the object has a
metadatablock name and at least one field was produced, the result is
wrapped as blockName to fields; otherwise the bare field mapping is
returned.  Called on a non-model value (possible only under a malformed
compound descriptor) Python raises AttributeError; that corner is mapped
to vnull and is exercised by no claim. -/
def dataverse_dict : Value → Value
  | vobj bn attrs =>
    let jo := dataverse_fieldsAux attrs []
    match bn with
    | some b =>
      if jo.isEmpty then vdict jo
      else vdict [(b, vdict [("fields", vlist (jo.map Prod.snd))])]
    | none => vdict jo
  | _ => vnull

/-- The field loop of base.py lines 114-154: skip helper names and empty
values, process compounds recursively (lines 128-132: a compound list
maps dataverse_dict over its elements, a single compound is serialized
directly), normalize, and update json_obj under the descriptor
typeName. -/
def dataverse_fieldsAux :
    List (String × FieldDesc × Value) → List (String × Value) → List (String × Value)
  | [], acc => acc
  | (n, d, v) :: rest, acc =>
    if helperName n || is_empty v then dataverse_fieldsAux rest acc
    else
      let value :=
        if d.typeClass == "compound" then
          match v with
          | vlist xs => vlist (dvCompoundList xs)
          | w => dataverse_dict w
        else v
      dataverse_fieldsAux rest (updateAssoc acc d.typeName (fieldMapping d (normalizeTail value)))

def dvCompoundList : List Value → List Value
  | [] => []
  | v :: rest => dataverse_dict v :: dvCompoundList rest

end

/-- The unwrapped field mapping (the json_obj of base.py line 112). -/
def dataverse_fields (attrs : List (String × FieldDesc × Value)) :
    List (String × Value) :=
  dataverse_fieldsAux attrs []

/-- The compound-processing step of base.py lines 128-132 as a standalone
function, for use in equation lemmas. -/
def dvProcessValue (d : FieldDesc) (v : Value) : Value :=
  if d.typeClass == "compound" then
    match v with
    | vlist xs => vlist (dvCompoundList xs)
    | w => dataverse_dict w
  else v

theorem dataverse_fieldsAux_nil (acc : List (String × Value)) :
    dataverse_fieldsAux [] acc = acc := rfl

theorem dataverse_fieldsAux_cons (n : String) (d : FieldDesc) (v : Value)
    (rest : List (String × FieldDesc × Value)) (acc : List (String × Value)) :
    dataverse_fieldsAux ((n, d, v) :: rest) acc =
      if (helperName n || is_empty v) = true then dataverse_fieldsAux rest acc
      else dataverse_fieldsAux rest (updateAssoc acc d.typeName
        (fieldMapping d (normalizeTail (dvProcessValue d v)))) := by
  cases v <;> rfl

/-- The keys of an association list, in order. -/
def keysOf (kvs : List (String × Value)) : List String :=
  kvs.map Prod.fst

/-! ## The Dataset model, core/dataset.py -/

/-- Modelled from the spec: easyDataverse/core/file.py is not among the
sources; only its callers are.  Per the spec's File Entry data model, a
File carries filename, localPath, remoteDirectory (dv_dir), description
and an optional remoteFileId (file_pid, absent until upload), and
identity for duplicate-detection is full equality of
filename+localPath+remoteDirectory+description - a freshly constructed
entry carries no file_pid, so the derived structural equality below
realizes exactly that identity for the entries add_file compares. -/
structure File where
  filename : String
  local_path : String
  dv_dir : String
  description : String
  file_pid : Option String
deriving DecidableEq, Repr

/-- core/dataset.py lines 26-35: the dataset state the claims touch.
metadatablocks is the block-name-keyed mapping (insertion ordered, keys
unique); the connection parameters play no role in any claim. -/
structure Dataset where
  metadatablocks : List (String × Value)
  p_id : Option String
  files : List File
deriving Repr

/-- core/dataset.py lines 59-80, Dataset.add_file.  Python mutates the
dataset and may raise FileExistsError; the embedding returns the raised
message (or unit) together with the state after the call. -/
def add_file (ds : Dataset) (local_path dv_dir description : String) :
    Except String Unit × Dataset :=
  let file : File := ⟨pyBasename local_path, local_path, dv_dir, description, none⟩
  if file ∉ ds.files then
    (Except.ok (), { ds with files := ds.files ++ [file] })
  else
    (Except.error "File has already been added to the dataset", ds)

/-- core/dataset.py lines 151-161, Dataset._has_hidden_dir. -/
def has_hidden_dir (path dirpath : String) : Bool :=
  if path == dirpath then false
  else
    let p := pyReplace path (dirpath ++ "/") ""
    (pySplit (pyNormpath p) "/").any (fun dir => pyStartsWith dir ".")

/-- core/dataset.py lines 163-175, Dataset._has_ignore_dirs: build the
check list of substring tests (ignore patterns with slashes removed,
tested against every component for every non-empty pattern) and take any
of it. -/
def has_ignore_dirs (path dirpath : String) (ignores : List String) : Bool :=
  let p := pyReplace path (dirpath ++ "/") ""
  let dirs := pySplit (pyNormpath p) "/"
  let check := ignores.flatMap (fun ignore =>
    dirs.filterMap (fun dir =>
      if ignore.length > 0 then some (pyIn (pyReplace ignore "/" "") dir)
      else none))
  check.any (fun b => b)

/-- core/dataset.py lines 115-149, the inner file loop of add_directory:
hidden files (leading dot) are skipped; otherwise the filename relative to
dirpath and the target dataverse directory are computed and the entry is
either substituted into the first existing entry with the same filename
(local_path overwritten in place) or appended. -/
def processFile (dirpath dv_dir path : String) (ds : Dataset) (file : String) :
    Dataset :=
  if pyStartsWith file "." then ds
  else
    let filepath := pyJoin path file
    let dirparts := pySplit dirpath "/"
    let path_parts := (pySplit filepath "/").filter (fun p => !dirparts.contains p)
    let filename := pyJoinList path_parts
    let dv_pre :=
      if dirpath ≠ "." then
        pyJoin dv_dir (pyDirname (match (pySplit filepath dirpath).getLast? with
          | some t => t
          | none => ""))
      else dv_dir
    let data_file : File := ⟨filename, filepath, dv_pre, "", none⟩
    if ds.files.any (fun f => f.filename == filename) then
      { ds with files := substFirst ds.files filename filepath }
    else
      { ds with files := ds.files ++ [data_file] }
where
  /-- Overwrite local_path of the first entry with the given filename
  (the loop breaks after the first hit). -/
  substFirst : List File → String → String → List File
    | [], _, _ => []
    | f :: rest, fname, lp =>
      if f.filename == fname then { f with local_path := lp } :: rest
      else f :: substFirst rest fname lp

/-- core/dataset.py lines 104-149, one iteration of the os.walk loop: a
walk entry is skipped whole when its path contains a hidden directory
(unless include_hidden) or an ignored component; otherwise its files are
processed in order. -/
def processEntry (dirpath dv_dir : String) (include_hidden : Bool)
    (ignores : List String) (ds : Dataset) (entry : String × List String) :
    Dataset :=
  if has_hidden_dir entry.1 dirpath && !include_hidden then ds
  else if has_ignore_dirs entry.1 dirpath ignores then ds
  else entry.2.foldl (processFile dirpath dv_dir entry.1) ds

/-- core/dataset.py lines 82-149, Dataset.add_directory with the
filesystem abstracted: the os.walk result is passed as the list of
(path, files-in-that-directory) entries; the isdir guard of lines 99-102
is filesystem I/O outside the model. -/
def add_directory_walk (ds : Dataset) (walk : List (String × List String))
    (dirpath dv_dir : String) (include_hidden : Bool) (ignores : List String) :
    Dataset :=
  walk.foldl (processEntry dirpath dv_dir include_hidden ignores) ds

/-! ## The required-field path validator, core/dataset.py lines 293-363 -/

/-- core/dataset.py lines 16-23. -/
def REQUIRED_FIELDS : List String :=
  ["citation/title",
   "citation/author/name",
   "citation/dataset_contact/name",
   "citation/dataset_contact/email",
   "citation/ds_description/value",
   "citation/subject"]

/-- Block lookup in the dataset's metadatablocks mapping. -/
def lookupBlock (ds : Dataset) (name : String) : Option Value :=
  (ds.metadatablocks.find? (fun p => p.1 == name)).map Prod.snd

mutual

/-- The nob.Nob path enumeration of a nested dict/list structure: every
node below the root, each as its slash-led path string (list positions as
numeric components) paired with the sub-value stored there. -/
def nobPaths : Value → List (String × Value)
  | vdict kvs => nobPathsKVs kvs
  | vlist xs => nobPathsList 0 xs
  | _ => []

def nobPathsKVs : List (String × Value) → List (String × Value)
  | [] => []
  | (k, v) :: rest =>
    ("/" ++ k, v) :: ((nobPaths v).map (fun q => ("/" ++ k ++ q.1, q.2))
      ++ nobPathsKVs rest)

def nobPathsList : Nat → List Value → List (String × Value)
  | _, [] => []
  | i, v :: rest =>
    ("/" ++ toString i, v) :: ((nobPaths v).map (fun q => ("/" ++ toString i ++ q.1, q.2))
      ++ nobPathsList (i + 1) rest)

end

/-- core/dataset.py lines 340-342: rebuild a nob path with every numeric
component (list index) removed, so that author/0/name and author/1/name
both compare as author/name. -/
def stripDigits (p : String) : String :=
  String.intercalate "/" ((pySplit p "/").filter (fun part => !pyIsDigit part))

/-- The result list built by the loop of core/dataset.py lines 336-361:
a false entry per null-valued matching path, plus one false when no path
matched at all. -/
def requiredFieldResults (block : Value) (field_path : String) : List Bool :=
  let paths := nobPaths (pyDict false block)
  let found := paths.filter (fun q => stripDigits q.1 == field_path)
  let field_exists := !found.isEmpty
  let results := (found.filter (fun q => isNull q.2)).map (fun _ => false)
  if field_exists then results else results ++ [false]

/-- core/dataset.py lines 313-363, Dataset._validate_required_field.  The
console warnings printed on lines 350-358 are side effects outside the
model; the raised ValueError for an unregistered metadatablock is the
error case.  The block's generic dict form is taken with .dict() - no
exclude_none - so None-valued attributes are visible as null-valued
paths.  Python star-unpacking of split never yields the empty list, so
that branch is unreachable. -/
def validate_required_field (ds : Dataset) (path : String) :
    Except String Bool :=
  match pySplit path "/" with
  | [] => Except.ok false
  | mb :: field =>
    match lookupBlock ds mb with
    | none =>
      Except.error ("Metadatablock \x27" ++ mb ++ "\x27 is not present in the dataset. Please use \x27list_metadatablocks\x27 to see which metadatablocks are registered.")
    | some block =>
      Except.ok ((requiredFieldResults block
        ("/" ++ String.intercalate "/" field)).length == 0)

/-- The loop of core/dataset.py lines 304-307: collect the per-path
results, propagating the first raised error (a Python exception aborts
the loop). -/
def collectResults (ds : Dataset) : List String → Except String (List Bool)
  | [] => Except.ok []
  | f :: rest =>
    match validate_required_field ds f with
    | Except.error e => Except.error e
    | Except.ok b =>
      match collectResults ds rest with
      | Except.error e => Except.error e
      | Except.ok bs => Except.ok (b :: bs)

/-- core/dataset.py lines 294-311, Dataset._validate_required_fields: all
required paths are checked, then a single assert raises once with a fixed
message when any result is false. -/
def validate_required_fields (ds : Dataset) : Except String Unit :=
  match collectResults ds REQUIRED_FIELDS with
  | Except.error e => Except.error e
  | Except.ok results =>
    if results.all (fun r => r) then Except.ok ()
    else
      Except.error "Required fields are missing or empty. Please provide a value for these fields."

/-! ## Concrete instances used by witnesses and counterexamples -/

def descTitle : FieldDesc := ⟨"title", "primitive", false⟩

def descName : FieldDesc := ⟨"authorName", "primitive", false⟩

def descAuthor : FieldDesc := ⟨"author", "compound", true⟩

def emptyDataset : Dataset := ⟨[], none, []⟩

/-- An author compound whose name is None. -/
def authorNone : Value := vobj none [("name", descName, vnull)]

/-- An author compound with a non-null name. -/
def authorAlice : Value := vobj none [("name", descName, vstr "Alice")]

/-- A citation block with two authors, one null name and one non-null. -/
def citationMixed : Value :=
  vobj (some "citation") [("author", descAuthor, vlist [authorNone, authorAlice])]

def datasetMixed : Dataset := ⟨[("citation", citationMixed)], none, []⟩

/-- A citation block with a single fully populated author. -/
def citationAlice : Value :=
  vobj (some "citation") [("author", descAuthor, vlist [authorAlice])]

def datasetAlice : Dataset := ⟨[("citation", citationAlice)], none, []⟩

/-- A dataset registering only a language block, no citation. -/
def datasetLanguage : Dataset :=
  ⟨[("language", vobj (some "language") [])], none, []⟩

/-! ## Helper lemmas -/

theorem pyCapitalize_eq_empty_iff (x : String) : pyCapitalize x = "" ↔ x = "" := by
  constructor
  · intro h
    cases x with
    | mk data =>
      cases data with
      | nil => rfl
      | cons c cs =>
        exfalso
        have := congrArg String.data h
        simp [pyCapitalize] at this
  · intro h
    subst h
    rfl

/-! ## C7: the snake-to-camel transform -/

/-- C7: snake_to_camel maps this_is_snake to ThisIsSnake and a__b to A_B,
and in general every empty segment between consecutive underscores
contributes a literal underscore to the output, never an empty string:
the transform coincides pointwise with mapping empty segments to an
underscore and non-empty segments to their capitalization. -/
theorem spec_C7 :
    snake_to_camel "this_is_snake" = "ThisIsSnake" ∧
    snake_to_camel "a__b" = "A_B" ∧
    ∀ w : String, snake_to_camel w =
      String.join ((pySplit w "_").map
        (fun x => if x = "" then "_" else pyCapitalize x)) := by
  refine ⟨rfl, rfl, fun w => ?_⟩
  unfold snake_to_camel
  congr 1
  apply List.map_congr_left
  intro x _
  by_cases hx : x = ""
  · subst hx; rfl
  · have hc : pyCapitalize x ≠ "" := fun h => hx ((pyCapitalize_eq_empty_iff x).mp h)
    simp [hx, hc]

/-! ## C8: duplicate file addition -/

/-- C8: if adding a file succeeded, adding it again with the identical
(local path, dataverse directory, description) tuple - hence identical
filename - raises the duplicate-entry FileExistsError and leaves the file
list exactly as it was after the first call. -/
theorem add_file_eq (ds : Dataset) (lp dir desc : String) :
    add_file ds lp dir desc =
      if (⟨pyBasename lp, lp, dir, desc, none⟩ : File) ∉ ds.files then
        (Except.ok (),
          { ds with files := ds.files ++ [⟨pyBasename lp, lp, dir, desc, none⟩] })
      else (Except.error "File has already been added to the dataset", ds) :=
  rfl

theorem spec_C8 (ds : Dataset) (lp dir desc : String)
    (h : (add_file ds lp dir desc).1 = Except.ok ()) :
    add_file ((add_file ds lp dir desc).2) lp dir desc =
      (Except.error "File has already been added to the dataset",
        (add_file ds lp dir desc).2) := by
  by_cases hc : (⟨pyBasename lp, lp, dir, desc, none⟩ : File) ∈ ds.files
  · rw [add_file_eq, if_neg (not_not_intro hc)] at h
    exact absurd h (by simp)
  · have h2 : (add_file ds lp dir desc).2 =
        { ds with files := ds.files ++ [⟨pyBasename lp, lp, dir, desc, none⟩] } := by
      rw [add_file_eq, if_pos hc]
    have hmem : (⟨pyBasename lp, lp, dir, desc, none⟩ : File) ∈
        ds.files ++ [⟨pyBasename lp, lp, dir, desc, none⟩] :=
      List.mem_append_right _ (List.mem_singleton_self _)
    rw [h2, add_file_eq, if_neg (not_not_intro hmem)]

/-- C8 witness: on the empty dataset the first addition of a/b.txt
succeeds and the second identical addition errors with the state
unchanged. -/
theorem spec_C8_witness :
    add_file ((add_file emptyDataset "a/b.txt" "mydir" "d").2) "a/b.txt" "mydir" "d" =
      (Except.error "File has already been added to the dataset",
        (add_file emptyDataset "a/b.txt" "mydir" "d").2) :=
  spec_C8 emptyDataset "a/b.txt" "mydir" "d" rfl

/-! ## C9: directory-ingestion filtering -/

theorem foldl_processFile_filter (dirpath dv_dir path : String)
    (files : List String) (ds : Dataset) :
    files.foldl (processFile dirpath dv_dir path) ds =
      (files.filter (fun f => !pyStartsWith f ".")).foldl
        (processFile dirpath dv_dir path) ds := by
  induction files generalizing ds with
  | nil => rfl
  | cons f rest ih =>
    by_cases hf : pyStartsWith f "." = true
    · have hskip : processFile dirpath dv_dir path ds f = ds := by
        unfold processFile
        simp [hf]
      simp only [List.foldl_cons, List.filter_cons, hf, Bool.not_true, ite_false, hskip]
      exact ih ds
    · have hf' : pyStartsWith f "." = false := eq_false_of_ne_true hf
      simp only [List.foldl_cons, List.filter_cons, hf', Bool.not_false, ite_true]
      exact ih (processFile dirpath dv_dir path ds f)

/-- C9: during directory ingestion, a walk entry whose path matches an
ignore pattern contributes nothing regardless of the include_hidden flag,
and a file whose name begins with a dot is always skipped (dropping all
such files from an entry leaves the resulting dataset unchanged),
regardless of the include_hidden flag. -/
theorem spec_C9 (dirpath dv_dir : String) (ignores : List String)
    (include_hidden : Bool) (ds : Dataset) (path : String) (files : List String) :
    (has_ignore_dirs path dirpath ignores = true →
      processEntry dirpath dv_dir include_hidden ignores ds (path, files) = ds) ∧
    processEntry dirpath dv_dir include_hidden ignores ds (path, files) =
      processEntry dirpath dv_dir include_hidden ignores ds
        (path, files.filter (fun f => !pyStartsWith f ".")) := by
  constructor
  · intro hig
    unfold processEntry
    by_cases hh : has_hidden_dir path dirpath && !include_hidden
    · simp [hh]
    · simp [hh, hig]
  · unfold processEntry
    by_cases hh : has_hidden_dir path dirpath && !include_hidden
    · simp [hh]
    · by_cases hig : has_ignore_dirs path dirpath ignores
      · simp [hh, hig]
      · simp only [hh, hig]
        exact foldl_processFile_filter dirpath dv_dir path files ds

/-- C9 witness: the walk entry root/.hidden matches the ignore pattern
.hidden and is skipped even with include_hidden set. -/
theorem spec_C9_witness :
    has_ignore_dirs "root/.hidden" "root" [".hidden"] = true ∧
    processEntry "root" "" true [".hidden"] emptyDataset
      ("root/.hidden", ["file.txt"]) = emptyDataset :=
  ⟨rfl, (spec_C9 "root" "" [".hidden"] true emptyDataset "root/.hidden"
    ["file.txt"]).1 rfl⟩

/-! ## Keys of the wire field mapping -/

theorem mem_keys_updateAssoc (kvs : List (String × Value)) (k : String) (v : Value)
    (k' : String) :
    k' ∈ keysOf (updateAssoc kvs k v) ↔ k' ∈ keysOf kvs ∨ k' = k := by
  unfold updateAssoc
  by_cases hany : kvs.any (fun p => p.1 == k) = true
  · rw [if_pos hany]
    have hkeys : keysOf (kvs.map fun p => if p.1 == k then (k, v) else p) = keysOf kvs := by
      unfold keysOf
      rw [List.map_map]
      apply List.map_congr_left
      intro p _
      by_cases hp : p.1 = k
      · simp [hp]
      · simp [hp]
    obtain ⟨p, hpmem, hpk⟩ := List.any_eq_true.mp hany
    have hk : k ∈ keysOf kvs := by
      rw [← eq_of_beq hpk]
      exact List.mem_map.mpr ⟨p, hpmem, rfl⟩
    rw [hkeys]
    constructor
    · exact Or.inl
    · rintro (h | rfl)
      · exact h
      · exact hk
  · rw [if_neg hany]
    unfold keysOf
    rw [List.map_append]
    simp [List.mem_append]

theorem mem_keys_fieldsAux (attrs : List (String × FieldDesc × Value))
    (acc : List (String × Value)) (k : String) :
    k ∈ keysOf (dataverse_fieldsAux attrs acc) ↔
      k ∈ keysOf acc ∨ ∃ n d v, (n, d, v) ∈ attrs ∧ helperName n = false ∧
        is_empty v = false ∧ d.typeName = k := by
  induction attrs generalizing acc with
  | nil => simp [dataverse_fieldsAux_nil]
  | cons a rest ih =>
    obtain ⟨n, d, v⟩ := a
    rw [dataverse_fieldsAux_cons]
    by_cases hskip : (helperName n || is_empty v) = true
    · rw [if_pos hskip, ih]
      constructor
      · rintro (hacc | ⟨n', d', v', hmem, hn', hv', hk'⟩)
        · exact Or.inl hacc
        · exact Or.inr ⟨n', d', v', List.mem_cons_of_mem _ hmem, hn', hv', hk'⟩
      · rintro (hacc | ⟨n', d', v', hmem, hn', hv', hk'⟩)
        · exact Or.inl hacc
        · rcases List.mem_cons.mp hmem with heq | hrest
          · exfalso
            injection heq with h1 h23
            injection h23 with h2 h3
            subst h1; subst h2; subst h3
            rcases Bool.or_eq_true_iff.mp hskip with h | h
            · rw [hn'] at h; exact Bool.false_ne_true h
            · rw [hv'] at h; exact Bool.false_ne_true h
          · exact Or.inr ⟨n', d', v', hrest, hn', hv', hk'⟩
    · have hn : helperName n = false := by
        rcases Bool.or_eq_false_iff.mp (eq_false_of_ne_true hskip) with ⟨h1, _⟩
        exact h1
      have hv : is_empty v = false := by
        rcases Bool.or_eq_false_iff.mp (eq_false_of_ne_true hskip) with ⟨_, h2⟩
        exact h2
      rw [if_neg hskip, ih, mem_keys_updateAssoc]
      constructor
      · rintro ((hacc | hk) | ⟨n', d', v', hmem, hn', hv', hk'⟩)
        · exact Or.inl hacc
        · exact Or.inr ⟨n, d, v, List.mem_cons_self _ _, hn, hv, hk.symm⟩
        · exact Or.inr ⟨n', d', v', List.mem_cons_of_mem _ hmem, hn', hv', hk'⟩
      · rintro (hacc | ⟨n', d', v', hmem, hn', hv', hk'⟩)
        · exact Or.inl (Or.inl hacc)
        · rcases List.mem_cons.mp hmem with heq | hrest
          · injection heq with h1 h23
            injection h23 with h2 h3
            subst h1; subst h2; subst h3
            exact Or.inl (Or.inr hk'.symm)
          · exact Or.inr ⟨n', d', v', hrest, hn', hv', hk'⟩

/-! ## C2: serialization omits exactly the empty attributes -/

/-- C2: a wire name appears as a key of the field mapping produced by
dataverse_dict exactly when some non-helper attribute with that wire name
has a non-empty value - where is_empty classifies null values, empty
lists, and nested compounds whose null-excluded dict form is empty.  In
particular, every attribute whose value is empty in that sense
contributes no key, so (wire names being distinct per schema) the wire
name of a null, empty-list or empty-compound attribute never appears. -/
theorem spec_C2 (attrs : List (String × FieldDesc × Value)) (k : String) :
    k ∈ keysOf (dataverse_fields attrs) ↔
      ∃ n d v, (n, d, v) ∈ attrs ∧ helperName n = false ∧
        is_empty v = false ∧ d.typeName = k := by
  unfold dataverse_fields
  rw [mem_keys_fieldsAux]
  simp [keysOf]

/-! ## C10: the emptiness test elides neither empty strings nor empty
plain mappings -/

/-- C10: is_empty marks only None, the empty list, and model objects
(whose null-excluded dict form is empty) - never strings or plain dicts;
consequently an attribute holding the empty string or an empty plain
mapping is not elided: its wire name still appears among the keys of the
dataverse_dict field mapping. -/
theorem spec_C10 :
    (∀ v, is_empty v = true →
      v = vnull ∨ v = vlist [] ∨ ∃ bn attrs, v = vobj bn attrs) ∧
    (∀ s, is_empty (vstr s) = false) ∧
    (∀ kvs, is_empty (vdict kvs) = false) ∧
    (∀ attrs n d, (n, d, vstr "") ∈ attrs → helperName n = false →
      d.typeName ∈ keysOf (dataverse_fields attrs)) ∧
    (∀ attrs n d, (n, d, vdict []) ∈ attrs → helperName n = false →
      d.typeName ∈ keysOf (dataverse_fields attrs)) := by
  refine ⟨?_, fun s => rfl, fun kvs => rfl, ?_, ?_⟩
  · intro v h
    cases v with
    | vnull => exact Or.inl rfl
    | vlist xs =>
      cases xs with
      | nil => exact Or.inr (Or.inl rfl)
      | cons x xs => exact absurd h (by simp [is_empty])
    | vobj bn attrs => exact Or.inr (Or.inr ⟨bn, attrs, rfl⟩)
    | vbool b => exact absurd h (by simp [is_empty])
    | vstr s => exact absurd h (by simp [is_empty])
    | vdate y m d => exact absurd h (by simp [is_empty])
    | vdict kvs => exact absurd h (by simp [is_empty])
  · intro attrs n d hmem hn
    unfold dataverse_fields
    exact (mem_keys_fieldsAux attrs [] d.typeName).mpr
      (Or.inr ⟨n, d, vstr "", hmem, hn, rfl, rfl⟩)
  · intro attrs n d hmem hn
    unfold dataverse_fields
    exact (mem_keys_fieldsAux attrs [] d.typeName).mpr
      (Or.inr ⟨n, d, vdict [], hmem, hn, rfl, rfl⟩)

/-- C10 witness: a concrete attribute holding the empty string and one
holding an empty plain dict are not elided. -/
theorem spec_C10_witness :
    is_empty (vstr "") = false ∧
    "title" ∈ keysOf (dataverse_fields [("t", descTitle, vstr "")]) ∧
    "title" ∈ keysOf (dataverse_fields [("t", descTitle, vdict [])]) :=
  ⟨spec_C10.2.1 "",
   spec_C10.2.2.2.1 [("t", descTitle, vstr "")] "t" descTitle
     (List.mem_singleton_self _) rfl,
   spec_C10.2.2.2.2 [("t", descTitle, vdict [])] "t" descTitle
     (List.mem_singleton_self _) rfl⟩

/-! ## C3: block wrapping -/

/-- C3: if the object carries a metadatablock name and the field loop
produced at least one field, the result is wrapped as blockName to a
fields list holding the per-field mappings in declaration order; with no
block name, or with no fields produced, the bare field mapping is
returned. -/
theorem spec_C3 (bn : Option String) (attrs : List (String × FieldDesc × Value)) :
    (∀ b, bn = some b → dataverse_fields attrs ≠ [] →
      dataverse_dict (vobj bn attrs) =
        vdict [(b, vdict [("fields",
          vlist ((dataverse_fields attrs).map Prod.snd))])]) ∧
    (bn = none → dataverse_dict (vobj bn attrs) = vdict (dataverse_fields attrs)) ∧
    (dataverse_fields attrs = [] →
      dataverse_dict (vobj bn attrs) = vdict (dataverse_fields attrs)) := by
  refine ⟨?_, ?_, ?_⟩
  · intro b hb hne
    subst hb
    unfold dataverse_fields at hne
    have hie : ¬ ((dataverse_fieldsAux attrs []).isEmpty = true) := by
      intro h
      cases hl : dataverse_fieldsAux attrs [] with
      | nil => exact hne hl
      | cons x xs => rw [hl] at h; exact absurd h (by simp)
    show (if (dataverse_fieldsAux attrs []).isEmpty = true then
        vdict (dataverse_fieldsAux attrs [])
      else vdict [(b, vdict [("fields",
        vlist ((dataverse_fieldsAux attrs []).map Prod.snd))])]) =
      vdict [(b, vdict [("fields",
        vlist ((dataverse_fieldsAux attrs []).map Prod.snd))])]
    rw [if_neg hie]
  · intro hb
    subst hb
    rfl
  · intro he
    cases bn with
    | none => rfl
    | some b =>
      unfold dataverse_fields at he
      show (if (dataverse_fieldsAux attrs []).isEmpty = true then
          vdict (dataverse_fieldsAux attrs [])
        else vdict [(b, vdict [("fields",
          vlist ((dataverse_fieldsAux attrs []).map Prod.snd))])]) =
        vdict (dataverse_fieldsAux attrs [])
      rw [he]
      rfl

/-- C3 witness: a concrete named block with one populated field is
wrapped; an unnamed object and a named object with no fields are not. -/
theorem spec_C3_witness :
    dataverse_dict (vobj (some "citation") [("title", descTitle, vstr "T")]) =
      vdict [("citation", vdict [("fields",
        vlist ((dataverse_fields [("title", descTitle, vstr "T")]).map Prod.snd))])] ∧
    dataverse_dict (vobj none [("title", descTitle, vstr "T")]) =
      vdict (dataverse_fields [("title", descTitle, vstr "T")]) ∧
    dataverse_dict (vobj (some "citation") []) = vdict (dataverse_fields []) :=
  ⟨(spec_C3 (some "citation") [("title", descTitle, vstr "T")]).1 "citation" rfl
      (fun h => List.noConfusion h),
   (spec_C3 none [("title", descTitle, vstr "T")]).2.1 rfl,
   (spec_C3 (some "citation") []).2.2 rfl⟩

/-! ## C1: the required-field path validator -/

theorem mem_filter_match (paths : List (String × Value)) (fp : String)
    (q : String × Value) :
    q ∈ paths.filter (fun q => stripDigits q.1 == fp) ↔
      q ∈ paths ∧ stripDigits q.1 = fp := by
  rw [List.mem_filter]
  simp

theorem requiredFieldResults_eq_nil_iff (block : Value) (fp : String) :
    requiredFieldResults block fp = [] ↔
      ((∃ q ∈ nobPaths (pyDict false block), stripDigits q.1 = fp) ∧
        ∀ q ∈ nobPaths (pyDict false block), stripDigits q.1 = fp →
          isNull q.2 = false) := by
  simp only [requiredFieldResults]
  by_cases hex : ((nobPaths (pyDict false block)).filter
      (fun q => stripDigits q.1 == fp)) = []
  · rw [hex]
    simp only [List.isEmpty_nil, Bool.not_true, Bool.false_eq_true, if_false,
      List.filter_nil, List.map_nil, List.nil_append]
    constructor
    · intro h
      exact absurd h (by simp)
    · rintro ⟨⟨q, hq, hmatch⟩, _⟩
      have : q ∈ ((nobPaths (pyDict false block)).filter
          (fun q => stripDigits q.1 == fp)) :=
        (mem_filter_match _ fp q).mpr ⟨hq, hmatch⟩
      rw [hex] at this
      exact absurd this (List.not_mem_nil q)
  · have hie : ((nobPaths (pyDict false block)).filter
        (fun q => stripDigits q.1 == fp)).isEmpty = false := by
      cases hl : (nobPaths (pyDict false block)).filter
          (fun q => stripDigits q.1 == fp) with
      | nil => exact absurd hl hex
      | cons x xs => rfl
    rw [hie]
    simp only [Bool.not_false, if_true, List.map_eq_nil_iff, List.filter_eq_nil_iff]
    constructor
    · intro h
      constructor
      · obtain ⟨q, hq⟩ := List.exists_mem_of_ne_nil _ hex
        obtain ⟨hmem, hmatch⟩ := (mem_filter_match _ fp q).mp hq
        exact ⟨q, hmem, hmatch⟩
      · intro q hq hmatch
        have hmem := (mem_filter_match _ fp q).mpr ⟨hq, hmatch⟩
        have := h q hmem
        simp only [Bool.not_eq_true] at this
        exact this
    · rintro ⟨_, hall⟩
      intro q hq
      obtain ⟨hmem, hmatch⟩ := (mem_filter_match _ fp q).mp hq
      simp [hall q hmem hmatch]

/-- C1 counterexample: in a citation block with two authors, one with a
null name and one with the name Alice, the path citation/author/name has
a non-null concretization (author/1/name), yet the validator returns
fail - so pass is not equivalent to the existence of one non-null
concretization. -/
theorem spec_C1_counterexample :
    validate_required_field datasetMixed "citation/author/name" =
      Except.ok false ∧
    ((nobPaths (pyDict false citationMixed)).any
      (fun q => stripDigits q.1 == "/author/name" && !isNull q.2)) = true :=
  ⟨rfl, rfl⟩

/-- C1 amended: for a registered metadatablock, the validator passes iff
the index-stripped path has at least one concretization in the block's
dict form AND every such concretization is non-null (a single null
concretization fails the path even when another is populated). -/
theorem spec_C1 (ds : Dataset) (path mb : String) (field : List String)
    (block : Value)
    (hsplit : pySplit path "/" = mb :: field)
    (hblock : lookupBlock ds mb = some block) :
    validate_required_field ds path = Except.ok true ↔
      ((∃ q ∈ nobPaths (pyDict false block),
          stripDigits q.1 = "/" ++ String.intercalate "/" field) ∧
        ∀ q ∈ nobPaths (pyDict false block),
          stripDigits q.1 = "/" ++ String.intercalate "/" field →
            isNull q.2 = false) := by
  unfold validate_required_field
  rw [hsplit]
  dsimp only
  rw [hblock]
  rw [← requiredFieldResults_eq_nil_iff block ("/" ++ String.intercalate "/" field)]
  simp [List.length_eq_zero]

/-- C1 witness: with a single fully populated author the amended
characterization yields a concretization and the validator passes. -/
theorem spec_C1_witness :
    (∃ q ∈ nobPaths (pyDict false citationAlice),
        stripDigits q.1 = "/" ++ String.intercalate "/" ["author", "name"]) ∧
      ∀ q ∈ nobPaths (pyDict false citationAlice),
        stripDigits q.1 = "/" ++ String.intercalate "/" ["author", "name"] →
          isNull q.2 = false :=
  (spec_C1 datasetAlice "citation/author/name" "citation" ["author", "name"]
    citationAlice rfl rfl).mp rfl

/-! ## C4: dataset-level aggregation of required-field failures -/

theorem collectResults_ok (ds : Dataset) (fs : List String)
    (h : ∀ f ∈ fs, ∃ b, validate_required_field ds f = Except.ok b) :
    ∃ rs, collectResults ds fs = Except.ok rs ∧
      (rs.all (fun r => r) = true ↔
        ∀ f ∈ fs, validate_required_field ds f = Except.ok true) := by
  induction fs with
  | nil => exact ⟨[], rfl, by simp⟩
  | cons f rest ih =>
    obtain ⟨b, hb⟩ := h f (List.mem_cons_self f rest)
    obtain ⟨rs, hrs, hiff⟩ := ih (fun g hg => h g (List.mem_cons_of_mem f hg))
    refine ⟨b :: rs, ?_, ?_⟩
    · simp [collectResults, hb, hrs]
    · rw [List.all_cons, Bool.and_eq_true, hiff, List.forall_mem_cons, hb]
      simp

/-- C4 counterexample: on a dataset failing several required paths the
single raised message is the fixed sentence and does not enumerate the
failing paths - neither citation/title nor citation/author/name occurs in
it. -/
theorem spec_C4_counterexample :
    validate_required_fields datasetMixed =
      Except.error "Required fields are missing or empty. Please provide a value for these fields." ∧
    pyIn "citation/title"
      "Required fields are missing or empty. Please provide a value for these fields." = false ∧
    pyIn "citation/author/name"
      "Required fields are missing or empty. Please provide a value for these fields." = false :=
  ⟨rfl, rfl, rfl⟩

/-- C4 amended: when no required path raises (every metadatablock named
by a required path is registered), dataset-level validation evaluates
every required path, succeeds iff all of them pass, and otherwise raises
exactly one error whose message is the fixed sentence - which does not
enumerate the failing paths (those are only printed as per-path console
warnings). -/
theorem spec_C4 (ds : Dataset)
    (h : ∀ f ∈ REQUIRED_FIELDS, ∃ b, validate_required_field ds f = Except.ok b) :
    (validate_required_fields ds = Except.ok () ↔
      ∀ f ∈ REQUIRED_FIELDS, validate_required_field ds f = Except.ok true) ∧
    ∀ e, validate_required_fields ds = Except.error e →
      e = "Required fields are missing or empty. Please provide a value for these fields." := by
  obtain ⟨rs, hrs, hiff⟩ := collectResults_ok ds REQUIRED_FIELDS h
  by_cases hall : rs.all (fun r => r) = true
  · constructor
    · constructor
      · intro _
        exact hiff.mp hall
      · intro _
        simp [validate_required_fields, hrs, hall]
    · intro e he
      simp only [validate_required_fields, hrs, hall, if_true] at he
      exact absurd he (by simp)
  · have hall' : rs.all (fun r => r) = false := eq_false_of_ne_true hall
    constructor
    · simp only [validate_required_fields, hrs, hall', Bool.false_eq_true, if_false]
      constructor
      · intro he
        exact absurd he (by simp)
      · intro hforall
        exact absurd (hiff.mpr hforall) hall
    · intro e he
      simp only [validate_required_fields, hrs, hall', Bool.false_eq_true,
        if_false, Except.error.injEq] at he
      exact he.symm

set_option maxRecDepth 8192 in
/-- C4 witness: on the mixed dataset every required path evaluates
without raising, so the aggregation characterization applies. -/
theorem spec_C4_witness :
    (validate_required_fields datasetMixed = Except.ok () ↔
      ∀ f ∈ REQUIRED_FIELDS, validate_required_field datasetMixed f = Except.ok true) ∧
    ∀ e, validate_required_fields datasetMixed = Except.error e →
      e = "Required fields are missing or empty. Please provide a value for these fields." :=
  spec_C4 datasetMixed (by
    intro f hf
    simp only [REQUIRED_FIELDS, List.mem_cons, List.not_mem_nil, or_false] at hf
    rcases hf with rfl | rfl | rfl | rfl | rfl | rfl <;> exact ⟨false, rfl⟩)

/-! ## C5: unregistered metadatablock is a hard error -/

set_option maxRecDepth 32768 in
/-- C5 counterexample: validating citation/title on a dataset that only
registers the language block raises an error that names the missing block
citation but does not list the available block language - the message
refers the caller to list_metadatablocks instead of listing blocks. -/
theorem spec_C5_counterexample :
    validate_required_field datasetLanguage "citation/title" =
      Except.error "Metadatablock \x27citation\x27 is not present in the dataset. Please use \x27list_metadatablocks\x27 to see which metadatablocks are registered." ∧
    pyIn "citation"
      "Metadatablock \x27citation\x27 is not present in the dataset. Please use \x27list_metadatablocks\x27 to see which metadatablocks are registered." = true ∧
    pyIn "language"
      "Metadatablock \x27citation\x27 is not present in the dataset. Please use \x27list_metadatablocks\x27 to see which metadatablocks are registered." = false :=
  ⟨rfl, rfl, rfl⟩

/-- C5 amended: a required path whose leading metadatablock name is not
registered raises immediately (an error, not a recorded failure), with a
message naming the missing block and directing the caller to
list_metadatablocks - without listing the available blocks. -/
theorem spec_C5 (ds : Dataset) (path mb : String) (field : List String)
    (hsplit : pySplit path "/" = mb :: field)
    (hblock : lookupBlock ds mb = none) :
    validate_required_field ds path =
      Except.error ("Metadatablock \x27" ++ mb ++ "\x27 is not present in the dataset. Please use \x27list_metadatablocks\x27 to see which metadatablocks are registered.") := by
  unfold validate_required_field
  rw [hsplit]
  dsimp only
  rw [hblock]

/-- C5 witness: the amended rule applied to the language-only dataset. -/
theorem spec_C5_witness :
    validate_required_field datasetLanguage "citation/title" =
      Except.error ("Metadatablock \x27" ++ "citation" ++ "\x27 is not present in the dataset. Please use \x27list_metadatablocks\x27 to see which metadatablocks are registered.") :=
  spec_C5 datasetLanguage "citation/title" "citation" ["title"] rfl rfl

/-! ## C6: the generic dict export -/

theorem pyDumpAttrs_cons (en : Bool) (n : String) (d : FieldDesc) (v : Value)
    (rest : List (String × FieldDesc × Value)) :
    pyDumpAttrs en ((n, d, v) :: rest) =
      if (en && isNull v) = true then pyDumpAttrs en rest
      else (n, pyDump en v) :: pyDumpAttrs en rest := rfl

theorem mem_pyDumpAttrs (en : Bool) (attrs : List (String × FieldDesc × Value))
    (k : String) (w : Value) :
    (k, w) ∈ pyDumpAttrs en attrs ↔
      ∃ n d v, (n, d, v) ∈ attrs ∧ n = k ∧ ¬(en = true ∧ isNull v = true) ∧
        w = pyDump en v := by
  induction attrs with
  | nil => simp [pyDumpAttrs]
  | cons a rest ih =>
    obtain ⟨n, d, v⟩ := a
    rw [pyDumpAttrs_cons]
    by_cases hskip : (en && isNull v) = true
    · rw [if_pos hskip, ih]
      obtain ⟨hen, hnv⟩ := Bool.and_eq_true_iff.mp hskip
      constructor
      · rintro ⟨n', d', v', hmem, hk, hnn, hw⟩
        exact ⟨n', d', v', List.mem_cons_of_mem _ hmem, hk, hnn, hw⟩
      · rintro ⟨n', d', v', hmem, hk, hnn, hw⟩
        rcases List.mem_cons.mp hmem with heq | hrest
        · exfalso
          injection heq with h1 h23
          injection h23 with h2 h3
          subst h3
          exact hnn ⟨hen, hnv⟩
        · exact ⟨n', d', v', hrest, hk, hnn, hw⟩
    · have hskip' : (en && isNull v) = false := eq_false_of_ne_true hskip
      rw [if_neg hskip]
      constructor
      · intro hmem
        rcases List.mem_cons.mp hmem with heq | hrest
        · injection heq with h1 h2
          refine ⟨n, d, v, List.mem_cons_self _ _, h1.symm, ?_, h2⟩
          rintro ⟨rfl, hnv⟩
          rw [hnv] at hskip'
          simp at hskip'
        · obtain ⟨n', d', v', hm, hk, hnn, hw⟩ := ih.mp hrest
          exact ⟨n', d', v', List.mem_cons_of_mem _ hm, hk, hnn, hw⟩
      · rintro ⟨n', d', v', hmem, rfl, hnn, rfl⟩
        rcases List.mem_cons.mp hmem with heq | hrest
        · injection heq with h1 h23
          injection h23 with h2 h3
          subst h1; subst h3
          exact List.mem_cons_self _ _
        · exact List.mem_cons_of_mem _ (ih.mpr ⟨n', d', v', hrest, rfl, hnn, rfl⟩)

theorem mem_keysOf_iff (kvs : List (String × Value)) (k : String) :
    k ∈ keysOf kvs ↔ ∃ w, (k, w) ∈ kvs := by
  unfold keysOf
  rw [List.mem_map]
  constructor
  · rintro ⟨⟨a, b⟩, hmem, rfl⟩
    exact ⟨b, hmem⟩
  · rintro ⟨w, hmem⟩
    exact ⟨(k, w), hmem, rfl⟩

/-- C6 counterexample: the generic dict export does not apply the wire
emptiness rule recursively - a nested empty-list attribute survives in
both exclude_none modes although the wire rule classifies its object as
empty - and without exclude_none a null attribute is not removed at
all. -/
theorem spec_C6_counterexample :
    pyDict false (vobj none [("a", descTitle, vnull)]) = vdict [("a", vnull)] ∧
    pyDict false (vobj none [("child", descTitle,
        vobj none [("xs", descTitle, vlist [])])]) =
      vdict [("child", vdict [("xs", vlist [])])] ∧
    pyDict true (vobj none [("child", descTitle,
        vobj none [("xs", descTitle, vlist [])])]) =
      vdict [("child", vdict [("xs", vlist [])])] ∧
    is_empty (vobj none [("xs", descTitle, vlist [])]) = true :=
  ⟨rfl, rfl, rfl, rfl⟩

/-- C6 amended: dict() is model_dump (which drops null attributes at
every level only when exclude_none is passed) followed by removal of
empty-dict and empty-list values at the top level only: a key survives
iff its attribute is not an excluded null and its dumped value is not an
empty container.  Nested empty lists and (without exclude_none) nulls are
retained, so the removal is neither recursive nor the wire emptiness
rule. -/
theorem spec_C6 (en : Bool) (bn : Option String)
    (attrs : List (String × FieldDesc × Value)) :
    ∃ kvs, pyDict en (vobj bn attrs) = vdict kvs ∧
      ∀ k, k ∈ keysOf kvs ↔ ∃ n d v, (n, d, v) ∈ attrs ∧ n = k ∧
        ¬(en = true ∧ isNull v = true) ∧
        isEmptyContainer (pyDump en v) = false := by
  refine ⟨(pyDumpAttrs en attrs).filter (fun p => !isEmptyContainer p.2), rfl, ?_⟩
  intro k
  rw [mem_keysOf_iff]
  constructor
  · rintro ⟨w, hw⟩
    rw [List.mem_filter] at hw
    obtain ⟨hmem, hpred⟩ := hw
    obtain ⟨n, d, v, hnv, hk, hnn, hweq⟩ := (mem_pyDumpAttrs en attrs k w).mp hmem
    subst hweq
    refine ⟨n, d, v, hnv, hk, hnn, ?_⟩
    simpa using hpred
  · rintro ⟨n, d, v, hnv, hk, hnn, hec⟩
    refine ⟨pyDump en v, ?_⟩
    rw [List.mem_filter]
    exact ⟨(mem_pyDumpAttrs en attrs k (pyDump en v)).mpr ⟨n, d, v, hnv, hk, hnn, rfl⟩,
      by simp [hec]⟩

end EasyDataverse
